import Mathlib

/-!
Verification of the transaction-categorization core of the TXL accounting
demo.  The Python sources under `src/` are shallowly embedded: pure methods
become Lean functions, in-place mutation of `Transaction` match state becomes
explicit state passing, Python `float` confidences are modelled as exact
rationals (`ℚ`), Python dictionaries become insertion-ordered association
lists, and the external LLM call is modelled by passing the raw response
text (or `none` for a failed call) as an explicit argument.
-/

/-! ## Data model: `src/models/transaction.py` and `src/models/account.py` -/

/-- Enum of match sources (`MatchSource` in `src/models/transaction.py`). -/
inductive MatchSource where
  | MANUAL
  | RULE
  | MAPPING
  | LLM
  | UNKNOWN
deriving DecidableEq

/-- An account in the chart of accounts (`Account` in `src/models/account.py`).
The Python dataclass also stores a non-owning `parent` back-reference, used
only by the `full_name` display property; no claim depends on it, and the
tree structure is fully captured by the `children` lists, so the embedding
omits it. -/
inductive Account where
  | mk (number : String) (name : String) (children : List Account)

mutual

/-- Structural decidable equality for accounts (the Python dataclass
generates structural `__eq__` over the fields). -/
def Account.decEq : (a b : Account) → Decidable (a = b)
  | .mk n₁ m₁ c₁, .mk n₂ m₂ c₂ =>
    match String.decEq n₁ n₂ with
    | isFalse h => isFalse (by intro he; cases he; exact h rfl)
    | isTrue h₁ =>
      match String.decEq m₁ m₂ with
      | isFalse h => isFalse (by intro he; cases he; exact h rfl)
      | isTrue h₂ =>
        match Account.decEqList c₁ c₂ with
        | isFalse h => isFalse (by intro he; cases he; exact h rfl)
        | isTrue h₃ => isTrue (by rw [h₁, h₂, h₃])

/-- Decidable equality for lists of accounts. -/
def Account.decEqList : (l₁ l₂ : List Account) → Decidable (l₁ = l₂)
  | [], [] => isTrue rfl
  | [], _ :: _ => isFalse (by intro he; cases he)
  | _ :: _, [] => isFalse (by intro he; cases he)
  | a :: r₁, b :: r₂ =>
    match Account.decEq a b with
    | isFalse h => isFalse (by intro he; injection he; contradiction)
    | isTrue h₁ =>
      match Account.decEqList r₁ r₂ with
      | isFalse h => isFalse (by intro he; injection he; contradiction)
      | isTrue h₂ => isTrue (by rw [h₁, h₂])

end

instance : DecidableEq Account := Account.decEq

/-- Field accessor for `Account.number`. -/
def Account.number : Account → String
  | .mk n _ _ => n

/-- Field accessor for `Account.name`. -/
def Account.name : Account → String
  | .mk _ n _ => n

/-- Field accessor for `Account.children`. -/
def Account.children : Account → List Account
  | .mk _ _ c => c

/-- `Account.is_leaf`: true when the account has no children. -/
def Account.is_leaf (a : Account) : Bool := a.children.isEmpty

mutual

/-- `Account.find_by_number`: depth-first search for an account with the
given number, the account itself first, then its children in order. -/
def Account.find_by_number : Account → String → Option Account
  | .mk n nm cs, number =>
    if n = number then some (.mk n nm cs) else Account.findInChildren cs number

/-- Helper for the `for child in self.children` loop of `find_by_number`:
return the first hit among the children, in list order. -/
def Account.findInChildren : List Account → String → Option Account
  | [], _ => none
  | a :: rest, number =>
    match Account.find_by_number a number with
    | some r => some r
    | none => Account.findInChildren rest number

end

/-- The chart of accounts (`ChartOfAccounts` in `src/models/account.py`):
an ordered list of root accounts. -/
structure ChartOfAccounts where
  accounts : List Account
deriving DecidableEq

/-- `ChartOfAccounts.find_account`: first match across the root accounts. -/
def ChartOfAccounts.find_account (chart : ChartOfAccounts) (number : String) :
    Option Account :=
  Account.findInChildren chart.accounts number

mutual

/-- Helper `_get_leaves` of `ChartOfAccounts.get_leaf_accounts`. -/
def Account.getLeaves : Account → List Account
  | .mk n nm cs =>
    if (Account.mk n nm cs).is_leaf then [Account.mk n nm cs]
    else Account.getLeavesList cs

/-- The `for child in account.children` accumulation of `_get_leaves`. -/
def Account.getLeavesList : List Account → List Account
  | [] => []
  | a :: rest => Account.getLeaves a ++ Account.getLeavesList rest

end

/-- `ChartOfAccounts.get_leaf_accounts`: all leaf accounts, depth first. -/
def ChartOfAccounts.get_leaf_accounts (chart : ChartOfAccounts) : List Account :=
  Account.getLeavesList chart.accounts

/-- A transaction (`Transaction` in `src/models/transaction.py`).  Calendar
dates are modelled as integer day ordinals and the exact-decimal amount as a
rational; no claim inspects either.  The four match-state fields are exactly
the mutable state that `add_match` manages. -/
structure Transaction where
  transaction_date : Int
  post_date : Int
  description : String
  category : Option String
  type : String
  amount : ℚ
  memo : Option String
  matched_account : Option Account
  match_confidence : ℚ
  match_source : MatchSource
  alternative_matches : List (Account × ℚ)
deriving DecidableEq

/-- `Transaction.is_matched`: the transaction has a matched account. -/
def Transaction.is_matched (t : Transaction) : Bool :=
  t.matched_account.isSome

/-- Ordering used by `self.alternative_matches.sort(key=lambda x: x[1],
reverse=True)`: descending by confidence. -/
def matchGe (p q : Account × ℚ) : Prop := q.2 ≤ p.2

instance : DecidableRel matchGe := fun p q => inferInstanceAs (Decidable (q.2 ≤ p.2))

instance : IsTotal (Account × ℚ) matchGe where
  total p q := le_total q.2 p.2

instance : IsTrans (Account × ℚ) matchGe where
  trans _ _ _ h h2 := le_trans h2 h

/-- Python's `list.sort` is a stable sort; with the key `x[1]` reversed it
coincides with a stable insertion sort under `matchGe`. -/
def sortAlternatives (l : List (Account × ℚ)) : List (Account × ℚ) :=
  List.insertionSort matchGe l

/-- `Transaction.add_match`: the sole mutator of match state.  Branches in
source order: (1) first match or strictly higher confidence takes over the
primary slot, pushing a differing previous primary onto the alternatives
(sorted descending, truncated to 3); (2) a differing account with confidence
above 0.3 that is not already an alternative is appended to the alternatives
(sorted, truncated); (3) re-suggesting the current primary account updates
only a still-`UNKNOWN` source; (4) otherwise no change. -/
def Transaction.add_match (t : Transaction) (account : Account)
    (confidence : ℚ) (source : MatchSource) : Transaction :=
  if t.matched_account = none ∨ confidence > t.match_confidence then
    let alts :=
      match t.matched_account with
      | none => t.alternative_matches
      | some prev =>
        if prev ≠ account then
          (sortAlternatives (t.alternative_matches ++ [(prev, t.match_confidence)])).take 3
        else t.alternative_matches
    { t with matched_account := some account, match_confidence := confidence,
             match_source := source, alternative_matches := alts }
  else
    match t.matched_account with
    | some prev =>
      if account ≠ prev ∧ confidence > mkRat 3 10 then
        if t.alternative_matches.any (fun alt => decide (alt.1 = account)) then t
        else { t with alternative_matches :=
          (sortAlternatives (t.alternative_matches ++ [(account, confidence)])).take 3 }
      else if account = prev then
        if t.match_source = MatchSource.UNKNOWN then { t with match_source := source }
        else t
      else t
    | none => t

/-- `Transaction.needs_review`: unmatched, low confidence, or some
alternative within 0.10 of the primary confidence. -/
def Transaction.needs_review (t : Transaction) : Bool :=
  if t.matched_account = none then true
  else if t.match_confidence < mkRat 7 10 then true
  else t.alternative_matches.any (fun alt => alt.2 > t.match_confidence - mkRat 1 10)

/-! ## Rule matcher: `src/matching/rule_matcher.py` -/

/-- Python substring containment (`condition_value in mapped_description`). -/
def strContains (s pat : String) : Bool := decide (List.IsInfix pat.data s.data)

/-- A loaded rule record (`src/matching/rule_matcher.py` stores rules as
dictionaries with required keys `condition_type`, `condition_value`,
`account_number`, `priority` and optional `confidence`).  The field types
follow the rule-record format of the external interface: strings for the
condition fields and the account number, an integer priority, and an
optional numeric confidence. -/
structure Rule where
  condition_type : String
  condition_value : String
  account_number : String
  priority : Int
  confidence : Option ℚ
deriving DecidableEq

/-- `RuleMatcher.CONFIDENCE_EQUALS`: default for `description_equals`. -/
def RuleMatcher.CONFIDENCE_EQUALS : ℚ := mkRat 95 100

/-- `RuleMatcher.CONFIDENCE_CONTAINS`: default for `description_contains`. -/
def RuleMatcher.CONFIDENCE_CONTAINS : ℚ := mkRat 85 100

/-- `RuleMatcher.DEFAULT_RULE_PRIORITY`: default priority for rules without
one (the loader requires the `priority` key, so our typed rules always carry
a priority and this default is never consulted). -/
def RuleMatcher.DEFAULT_RULE_PRIORITY : Int := 10

/-- `RuleMatcher._apply_mapping`: substitute the description through the
description-mapping dictionary, leaving it unchanged when absent
(`self.description_mappings.get(description, description)`). -/
def RuleMatcher._apply_mapping (description_mappings : List (String × String))
    (description : String) : String :=
  (description_mappings.lookup description).getD description

/-- `RuleMatcher._validate_match`: a match candidate is valid only when the
account is a leaf (the `None` guard of the source cannot arise here because
the caller has already pattern-matched a found account). -/
def RuleMatcher._validate_match (account : Account) : Bool :=
  account.is_leaf

/-- One rule's evaluation inside `RuleMatcher.match_transaction`, up to the
conflict-resolution step: `none` when the rule is skipped (a falsy required
field, an unsupported condition type, or a failing condition), when the
target account is not found, or when `_validate_match` rejects it;
otherwise the validated account together with the resolved confidence
(a valid explicit `confidence` entry, else the per-type default).  The
source's internal-error guard (`match and rule_confidence < 0.0`) can never
fire, because a matching rule always resolves a confidence. -/
def ruleApplies (chart : ChartOfAccounts) (mapped_description : String)
    (rule : Rule) : Option (Account × ℚ) :=
  if rule.condition_type = "" ∨ rule.condition_value = "" ∨ rule.account_number = "" then
    none
  else
    let custom : Option ℚ :=
      match rule.confidence with
      | some c => if 0 ≤ c ∧ c ≤ 1 then some c else none
      | none => none
    let matched_conf : Option ℚ :=
      if rule.condition_type = "description_equals" then
        if mapped_description = rule.condition_value then
          some (custom.getD RuleMatcher.CONFIDENCE_EQUALS)
        else none
      else if rule.condition_type = "description_contains" then
        if strContains mapped_description rule.condition_value then
          some (custom.getD RuleMatcher.CONFIDENCE_CONTAINS)
        else none
      else none
    match matched_conf with
    | none => none
    | some rule_confidence =>
      match chart.find_account rule.account_number with
      | none => none
      | some potential_account =>
        if RuleMatcher._validate_match potential_account then
          some (potential_account, rule_confidence)
        else none

/-- The loop state of `RuleMatcher.match_transaction`: the current best
candidate and the sentinels `highest_confidence = -1.0`,
`highest_priority = -1`. -/
structure MatchState where
  best_match_account : Option Account
  highest_confidence : ℚ
  highest_priority : Int
deriving DecidableEq

/-- One iteration of the rule loop: conflict resolution by priority first,
then confidence among equal priorities. -/
def evalRule (chart : ChartOfAccounts) (mapped_description : String)
    (s : MatchState) (rule : Rule) : MatchState :=
  match ruleApplies chart mapped_description rule with
  | none => s
  | some (potential_account, rule_confidence) =>
    if rule.priority > s.highest_priority then
      ⟨some potential_account, rule_confidence, rule.priority⟩
    else if rule.priority = s.highest_priority ∧ rule_confidence > s.highest_confidence then
      ⟨some potential_account, rule_confidence, s.highest_priority⟩
    else s

/-- `RuleMatcher.match_transaction`: map the description, scan every loaded
rule keeping the best candidate, and apply the winner (if any) through
`Transaction.add_match` with source `RULE`.  Note that the loaded mapping
table is used only to rewrite the description fed to the rules; no separate
mapping candidate is produced. -/
def RuleMatcher.match_transaction (chart : ChartOfAccounts)
    (description_mappings : List (String × String)) (rules : List Rule)
    (t : Transaction) : Transaction :=
  let mapped_description := RuleMatcher._apply_mapping description_mappings t.description
  let final := rules.foldl (evalRule chart mapped_description) ⟨none, -1, -1⟩
  match final.best_match_account with
  | none => t
  | some best => t.add_match best final.highest_confidence MatchSource.RULE

/-! ## LLM matcher: `src/matching/llm_matcher.py`

The OpenAI client, the prompt text and the network call are external
collaborators.  The embedding therefore takes the raw response text as an
argument: `none` stands for an uninitialized client, an API error, a timeout
or a response with no content (all of which make `_call_llm_api` return
`None`), and the empty string for an empty content string (both are falsy in
the source's `if not llm_output` guards). -/

/-- Python `str.strip()`: drop leading and trailing whitespace. -/
def pyStrip (s : String) : String :=
  ⟨((s.data.dropWhile Char.isWhitespace).reverse.dropWhile Char.isWhitespace).reverse⟩

/-- The character-level worker of Python `str.split(sep)` for a one-character
separator: split at every occurrence, keeping empty pieces. -/
def splitAtChar (sep : Char) : List Char → List (List Char)
  | [] => [[]]
  | c :: rest =>
    match splitAtChar sep rest with
    | [] => if c = sep then [[], []] else [[c]]
    | piece :: pieces =>
      if c = sep then [] :: piece :: pieces else (c :: piece) :: pieces

/-- Python `s.split('\n')`. -/
def pySplitLines (s : String) : List String :=
  (splitAtChar '\n' s.data).map (fun piece => ⟨piece⟩)

/-- The `re.fullmatch(r"\d\x7b4\x7d", s)` check of `_parse_llm_response`:
exactly four digits. -/
def isFourDigitNumber (s : String) : Bool :=
  s.data.length = 4 && s.data.all Char.isDigit

/-- The `re.fullmatch(r"\d+", s)` check of `_parse_llm_response`: one or
more digits. -/
def isDigitString (s : String) : Bool :=
  !s.data.isEmpty && s.data.all Char.isDigit

/-- Python `int(s)` on a string of decimal digits. -/
def digitsToNat (s : String) : Nat :=
  s.data.foldl (fun n c => 10 * n + (c.toNat - Char.toNat '0')) 0

/-- `LLMMatcher._parse_llm_response`: split the stripped response into
lines; line 1 must be a four-digit number naming an existing leaf account,
line 2 an integer 0-100 scaled to a 0.0-1.0 confidence.  Any account-side
failure yields `(none, 0.0)`; a malformed or out-of-range confidence line
leaves the confidence at its default `0.0` without invalidating a parsed
account number. -/
def LLMMatcher._parse_llm_response (chart : ChartOfAccounts)
    (llm_output : Option String) : Option String × ℚ :=
  match llm_output with
  | none => (none, 0)
  | some out =>
    if out = "" then (none, 0)
    else
      match pySplitLines (pyStrip out) with
      | line0 :: line1 :: _ =>
        let parsed_acc_num_str := pyStrip line0
        let account_number : Option String :=
          if isFourDigitNumber parsed_acc_num_str then
            match chart.find_account parsed_acc_num_str with
            | some potential_account =>
              if potential_account.is_leaf then some parsed_acc_num_str else none
            | none => none
          else none
        let parsed_conf_str := pyStrip line1
        let confidence : ℚ :=
          if isDigitString parsed_conf_str then
            let parsed_conf_int := digitsToNat parsed_conf_str
            if parsed_conf_int ≤ 100 then mkRat parsed_conf_int 100 else 0
          else 0
        match account_number with
        | none => (none, 0)
        | some num => (some num, confidence)
      | _ => (none, 0)

/-- `LLMMatcher.match_transaction`: prompt creation fails only when the
chart has no leaf accounts; a failed or empty API response is a no-op;
otherwise parse the response and, when a validated account number came
back and the confidence is at least the current one (or the transaction is
unmatched), apply it through `add_match` with source `LLM`. -/
def LLMMatcher.match_transaction (chart : ChartOfAccounts)
    (llm_output : Option String) (t : Transaction) : Transaction :=
  if chart.get_leaf_accounts.isEmpty then t
  else
    match llm_output with
    | none => t
    | some out =>
      if out = "" then t
      else
        let parsed := LLMMatcher._parse_llm_response chart (some out)
        match parsed.1 with
        | none => t
        | some account_number =>
          match chart.find_account account_number with
          | none => t
          | some matched_account =>
            if t.is_matched = false ∨ parsed.2 ≥ t.match_confidence then
              t.add_match matched_account parsed.2 MatchSource.LLM
            else t

/-! ## Persistence: `src/persistence/rule_store.py` and the rule loading of
`src/matching/rule_matcher.py` -/

/-- A JSON value, the contents of a store file after `json.load`. -/
inductive JsonValue where
  | jnull
  | jbool (b : Bool)
  | jnum (q : ℚ)
  | jstr (s : String)
  | jarr (items : List JsonValue)
  | jobj (fields : List (String × JsonValue))

/-- The rules collection `RuleStore` persists:
`Dict[str, List[Tuple[str, float]]]`, account number to a list of
(pattern, confidence) pairs, as an insertion-ordered association list. -/
abbrev RulesDict := List (String × List (String × ℚ))

/-- `RuleStore.save`: tuples become two-element JSON arrays inside a JSON
object keyed by account number (`json.dump` of `rules_data`). -/
def RuleStore.save (rules : RulesDict) : JsonValue :=
  JsonValue.jobj (rules.map (fun acc_rules =>
    (acc_rules.1, JsonValue.jarr (acc_rules.2.map (fun pattern_conf =>
      JsonValue.jarr [JsonValue.jstr pattern_conf.1, JsonValue.jnum pattern_conf.2])))))

/-- One item of an account's rule list in `RuleStore.load`: kept when it is
a two-element list of a string and a number (`float(item[1])` also accepts
Python booleans, which are integers). -/
def parseRuleItem : JsonValue → Option (String × ℚ)
  | JsonValue.jarr [JsonValue.jstr p, JsonValue.jnum q] => some (p, q)
  | JsonValue.jarr [JsonValue.jstr p, JsonValue.jbool b] => some (p, if b then 1 else 0)
  | _ => none

/-- An account's rule list in `RuleStore.load`: invalid items are skipped
with a warning.  Iterating a JSON string yields characters and iterating a
JSON object yields its keys, none of which pass the item check; iterating a
number, boolean or null raises `TypeError`, which the surrounding handler
turns into a whole-load failure. -/
def parseRuleList : JsonValue → Option (List (String × ℚ))
  | JsonValue.jarr items => some (items.filterMap parseRuleItem)
  | JsonValue.jstr _ => some []
  | JsonValue.jobj _ => some []
  | _ => none

/-- The state of a store file as `load` finds it. -/
inductive FileState where
  | missing
  | corrupt
  | contents (j : JsonValue)

/-- The `for acc_num, rule_list in rules_data.items()` loop of
`RuleStore.load`: a non-iterable rule list raises, failing the whole load. -/
def loadRuleFields : List (String × JsonValue) → Option RulesDict
  | [] => some []
  | (acc_num, v) :: rest =>
    match parseRuleList v with
    | none => none
    | some rule_list =>
      match loadRuleFields rest with
      | none => none
      | some out => some ((acc_num, rule_list) :: out)

/-- `RuleStore.load`: an absent file loads as the empty dictionary, an
unreadable or undecodable file as `None`; decoded contents must be a JSON
object (`rules_data.items()` on anything else raises, which the handler
reports as `None`). -/
def RuleStore.load : FileState → Option RulesDict
  | FileState.missing => some []
  | FileState.corrupt => none
  | FileState.contents (JsonValue.jobj fields) => loadRuleFields fields
  | FileState.contents _ => none

/-- The Python runtime type of the value `_load_or_initialize_rules`
receives from `RuleStore.load`, next to the list-of-rule-records shape its
`isinstance(loaded_rules, list)` branch expects.  `RuleStore.load` is typed
(and implemented) to return an optional dictionary, so the list shape can
only come from elsewhere. -/
inductive StoreLoadResult where
  | failed
  | dict (d : RulesDict)
  | list (l : List Rule)

/-- The value `self.rule_store.load()` hands to the rule matcher. -/
def RuleStore.loadResult (fs : FileState) : StoreLoadResult :=
  match RuleStore.load fs with
  | none => StoreLoadResult.failed
  | some d => StoreLoadResult.dict d

/-- `RuleMatcher._load_or_initialize_rules`: a load failure initializes the
empty rule list; a list is validated entry by entry (our typed `Rule`
records always carry the required keys, so validation keeps them all, and an
out-of-range `confidence` entry is only warned about here and ignored later
at match time); any other shape - in particular the dictionary that
`RuleStore.load` actually produces - hits the final `else` branch, which
logs that the loaded rules are not in the expected list format and
initializes the empty rule list. -/
def RuleMatcher._load_or_initialize_rules : StoreLoadResult → List Rule
  | StoreLoadResult.failed => []
  | StoreLoadResult.list valid_rules => valid_rules
  | StoreLoadResult.dict _ => []

/-! ## Matcher base class and engine: `src/matching/matcher.py` and
`src/matching/engine.py`

A matcher is modelled by its `match_transaction` state transformer.  The
engine mutates the transaction list in place and pass 2 runs on a filtered
sublist whose elements alias the main list, so the functional rendering
applies the pass-2 step elementwise to the pass-1 result. -/

/-- `Matcher.process_transactions`: apply `match_transaction` to each
transaction that is not already matched. -/
def Matcher.process_transactions (match_transaction : Transaction → Transaction)
    (transactions : List Transaction) : List Transaction :=
  transactions.map (fun t => if t.is_matched then t else match_transaction t)

/-- The pass-2 selection of `MatchingEngine.process_transactions`:
unmatched, or matched below the secondary confidence threshold. -/
def MatchingEngine.transactions_for_secondary_pass
    (secondary_confidence_threshold : ℚ) (transactions : List Transaction) :
    List Transaction :=
  transactions.filter (fun t =>
    !t.is_matched || decide (t.match_confidence < secondary_confidence_threshold))

/-- The effect of pass 2 on one transaction of the main list: a selected
transaction goes through the secondary matcher's `process_transactions`
(which itself skips matched transactions); an unselected one is untouched. -/
def MatchingEngine.secondary_pass_step (secondary : Transaction → Transaction)
    (secondary_confidence_threshold : ℚ) (t : Transaction) : Transaction :=
  if !t.is_matched || decide (t.match_confidence < secondary_confidence_threshold) then
    if t.is_matched then t else secondary t
  else t

/-- `MatchingEngine.process_transactions`: fail when no primary matcher is
registered, otherwise run pass 1 over every transaction and, when a
secondary matcher is configured, pass 2 over the selected subset.  (The
source also catches and logs exceptions escaping either matcher; the
embedded matchers are total functions, so that handler has no content
here.) -/
def MatchingEngine.process_transactions
    (primary secondary : Option (Transaction → Transaction))
    (transactions : List Transaction)
    (secondary_confidence_threshold : ℚ) : Except String (List Transaction) :=
  match primary with
  | none => Except.error "No primary matcher registered with the engine"
  | some pm =>
    let after_pass_one := Matcher.process_transactions pm transactions
    match secondary with
    | none => Except.ok after_pass_one
    | some sm =>
      Except.ok (after_pass_one.map
        (MatchingEngine.secondary_pass_step sm secondary_confidence_threshold))

/-! ## Concrete fixtures

A small chart mirroring the test fixture of `tests/matching/test_rule_matcher.py`
(root 1000 with leaf 1100, and 1200 with leaf child 1210), and transactions in
various match states. -/

/-- Leaf account 1100. -/
def child1 : Account := .mk "1100" "Child 1" []

/-- Leaf account 1210. -/
def grandchild : Account := .mk "1210" "Grandchild" []

/-- Non-leaf account 1200 (parent of 1210). -/
def child2 : Account := .mk "1200" "Child 2" [grandchild]

/-- Root account 1000. -/
def rootAccount : Account := .mk "1000" "Root" [child1, child2]

/-- The sample chart of accounts. -/
def sampleChart : ChartOfAccounts := ⟨[rootAccount]⟩

/-- A freshly converted, unmatched transaction with the given description. -/
def freshTxn (desc : String) : Transaction :=
  ⟨0, 0, desc, some "Test", "Sale", 10, none, none, 0, MatchSource.UNKNOWN, []⟩

/-- A transaction matched to account 1100 at the given confidence, carrying
the given alternatives. -/
def matchedTxn (conf : ℚ) (alts : List (Account × ℚ)) : Transaction :=
  ⟨0, 0, "x", some "Test", "Sale", 10, none, some child1, conf, MatchSource.RULE, alts⟩

/-- A sequence of `add_match` calls `(account, confidence, source)` applied
in order, starting from the given transaction state. -/
def applyMatchCalls (calls : List (Account × ℚ × MatchSource)) (t : Transaction) :
    Transaction :=
  calls.foldl (fun u acs => u.add_match acs.1 acs.2.1 acs.2.2) t

/-! ## Claim theorems -/

/-- C8: with no primary matcher registered, `MatchingEngine.process_transactions`
fails with a `RuntimeError` for every input list, before any matcher or
transaction mutation can occur. -/
theorem process_transactions_without_primary_matcher_errors :
    ∀ (secondary : Option (Transaction → Transaction)) (transactions : List Transaction)
      (secondary_confidence_threshold : ℚ),
      MatchingEngine.process_transactions none secondary transactions
          secondary_confidence_threshold =
        Except.error "No primary matcher registered with the engine" :=
  fun _ _ _ => rfl

/-- C1: contrary to the claim, `RuleMatcher.match_transaction` derives no
candidate from the mapping table - mapping entries only rewrite the
description fed to the rules - so with an empty rule list the transaction is
always left unchanged, and on the concrete mapped input the final state stays
unmatched at confidence 0 rather than matched at the 0.95 threshold. -/
theorem mapping_key_with_empty_rules_never_matches :
    (∀ (chart : ChartOfAccounts) (description_mappings : List (String × String))
        (t : Transaction),
      RuleMatcher.match_transaction chart description_mappings [] t = t) ∧
    RuleMatcher.match_transaction sampleChart [("VENDOR ABC EXACT MATCH", "1100")] []
        (freshTxn "VENDOR ABC EXACT MATCH") = freshTxn "VENDOR ABC EXACT MATCH" ∧
    (freshTxn "VENDOR ABC EXACT MATCH").matched_account = none ∧
    (freshTxn "VENDOR ABC EXACT MATCH").match_confidence = 0 :=
  ⟨fun _ _ _ => rfl, by decide, rfl, rfl⟩

/-- The rule items written by `RuleStore.save` all survive the item filter of
`RuleStore.load`. -/
theorem filterMap_parseRuleItem_save (l : List (String × ℚ)) :
    l.filterMap
        (fun pc => parseRuleItem (JsonValue.jarr [JsonValue.jstr pc.1, JsonValue.jnum pc.2])) =
      l := by
  induction l with
  | nil => rfl
  | cons pc rest ih => simp [List.filterMap_cons, parseRuleItem, ih]

/-- C3: `RuleStore.save` followed by `RuleStore.load` returns the collection
unchanged (exact equality, hence also order-insensitive equality, with the
confidences read back as numbers); but a fresh `RuleMatcher` over any store
state - the saved one included - loads the empty rule list, because
`_load_or_initialize_rules` expects a list of rule records while
`RuleStore.load` produces a dictionary, so the reloaded matcher does not
reproduce a non-empty rule set. -/
theorem rule_store_roundtrip_but_fresh_matcher_loads_empty :
    (∀ rules : RulesDict,
      RuleStore.load (FileState.contents (RuleStore.save rules)) = some rules) ∧
    (∀ fs : FileState,
      RuleMatcher._load_or_initialize_rules (RuleStore.loadResult fs) = []) ∧
    RuleStore.load (FileState.contents (RuleStore.save
        [("1100", [("CUSTOM_RULE_XYZ", mkRat 19 20)])])) =
      some [("1100", [("CUSTOM_RULE_XYZ", mkRat 19 20)])] ∧
    RuleMatcher._load_or_initialize_rules (RuleStore.loadResult (FileState.contents
        (RuleStore.save [("1100", [("CUSTOM_RULE_XYZ", mkRat 19 20)])]))) = [] := by
  refine ⟨?_, ?_, by decide, by decide⟩
  · intro rules
    induction rules with
    | nil => rfl
    | cons ar rest ih =>
      simp only [RuleStore.save, RuleStore.load, List.map_cons, loadRuleFields] at ih ⊢
      simp [parseRuleList, Function.comp_def, filterMap_parseRuleItem_save, ih]
  · intro fs
    unfold RuleMatcher._load_or_initialize_rules RuleStore.loadResult
    cases RuleStore.load fs <;> simp

/-- Processing the pass-2 subset with a matcher's `process_transactions` is,
elementwise, the `secondary_pass_step` applied to each selected transaction:
the in-place mutation of the filtered sublist is what pass 2 contributes to
the main list. -/
theorem secondary_pass_on_subset (sm : Transaction → Transaction) (thr : ℚ)
    (l : List Transaction) :
    Matcher.process_transactions sm (MatchingEngine.transactions_for_secondary_pass thr l) =
      (MatchingEngine.transactions_for_secondary_pass thr l).map
        (MatchingEngine.secondary_pass_step sm thr) := by
  unfold Matcher.process_transactions
  refine List.map_congr_left ?_
  intro t ht
  have hp := (List.mem_filter.mp ht).2
  simp only [MatchingEngine.transactions_for_secondary_pass] at hp
  simp [MatchingEngine.secondary_pass_step, hp]

/-- C7: the pass-2 subset is exactly the transactions that are unmatched or
matched strictly below the threshold, the engine applies the pass-2 step to
the pass-1 output, and with threshold 0.80 a transaction matched at 0.75 is
selected while one matched at 0.85 is not. -/
theorem secondary_pass_selection_iff :
    (∀ (pm sm : Transaction → Transaction) (ts : List Transaction) (thr : ℚ),
      MatchingEngine.process_transactions (some pm) (some sm) ts thr =
        Except.ok ((Matcher.process_transactions pm ts).map
          (MatchingEngine.secondary_pass_step sm thr))) ∧
    (∀ (thr : ℚ) (ts : List Transaction) (t : Transaction),
      t ∈ MatchingEngine.transactions_for_secondary_pass thr ts ↔
        t ∈ ts ∧ (t.is_matched = false ∨ t.match_confidence < thr)) ∧
    matchedTxn (mkRat 75 100) [] ∈
      MatchingEngine.transactions_for_secondary_pass (mkRat 80 100)
        [matchedTxn (mkRat 75 100) [], matchedTxn (mkRat 85 100) []] ∧
    matchedTxn (mkRat 85 100) [] ∉
      MatchingEngine.transactions_for_secondary_pass (mkRat 80 100)
        [matchedTxn (mkRat 75 100) [], matchedTxn (mkRat 85 100) []] := by
  refine ⟨fun _ _ _ _ => rfl, ?_, by decide, by decide⟩
  intro thr ts t
  simp [MatchingEngine.transactions_for_secondary_pass, List.mem_filter,
    Bool.or_eq_true, Bool.not_eq_true', decide_eq_true_iff]

/-- C4: a transaction that leaves pass 1 matched below the threshold is
placed in the pass-2 subset, yet the pass-2 step leaves it unchanged: the
matcher base class invokes `match_transaction` only on unmatched
transactions. -/
theorem secondary_pass_skips_matched_transactions
    (sm : Transaction → Transaction) (thr : ℚ) (ts : List Transaction)
    (t : Transaction) (hm : t.is_matched = true) (hc : t.match_confidence < thr) :
    (t ∈ ts → t ∈ MatchingEngine.transactions_for_secondary_pass thr ts) ∧
    MatchingEngine.secondary_pass_step sm thr t = t := by
  constructor
  · intro ht
    exact List.mem_filter.mpr ⟨ht, by simp [hm, hc]⟩
  · simp [MatchingEngine.secondary_pass_step, hm, hc]

/-- C4 witness: the concrete transaction matched at 0.75 against threshold
0.80 satisfies the hypotheses, and the pass-2 step leaves it unchanged. -/
theorem secondary_pass_skips_matched_transactions_witness :
    (matchedTxn (mkRat 75 100) []).is_matched = true ∧
    (matchedTxn (mkRat 75 100) []).match_confidence < mkRat 80 100 ∧
    MatchingEngine.secondary_pass_step (fun u => u) (mkRat 80 100)
        (matchedTxn (mkRat 75 100) []) = matchedTxn (mkRat 75 100) [] :=
  ⟨by decide, by decide,
    (secondary_pass_skips_matched_transactions (fun u => u) (mkRat 80 100) []
      (matchedTxn (mkRat 75 100) []) (by decide) (by decide)).2⟩

/-- C9: an unmatched transaction always needs review; a matched one needs
review exactly when its confidence is below 0.70 or some alternative's
confidence is strictly greater than the primary confidence minus 0.10; in
particular review is needed at 0.65, not needed at 0.85 with no alternative
above 0.75, and needed again at 0.85 with an alternative at 0.80. -/
theorem needs_review_characterization :
    (∀ t : Transaction, t.is_matched = false → t.needs_review = true) ∧
    (∀ t : Transaction, t.is_matched = true →
      (t.needs_review = true ↔
        t.match_confidence < mkRat 7 10 ∨
          ∃ p ∈ t.alternative_matches, p.2 > t.match_confidence - mkRat 1 10)) ∧
    (matchedTxn (mkRat 65 100) []).needs_review = true ∧
    (matchedTxn (mkRat 85 100) [(grandchild, mkRat 75 100)]).needs_review = false ∧
    (matchedTxn (mkRat 85 100) [(grandchild, mkRat 80 100)]).needs_review = true := by
  refine ⟨?_, ?_, ?_, ?_, ?_⟩
  · intro t ht
    cases h : t.matched_account with
    | none => simp [Transaction.needs_review, h]
    | some a => simp [Transaction.is_matched, h] at ht
  · intro t ht
    cases h : t.matched_account with
    | none => simp [Transaction.is_matched, h] at ht
    | some a =>
      by_cases hc : t.match_confidence < mkRat 7 10 <;>
        simp [Transaction.needs_review, h, hc, List.any_eq_true]
  · norm_num [Transaction.needs_review, matchedTxn, Option.some_ne_none, mkRat, Rat.normalize]
  · norm_num [Transaction.needs_review, matchedTxn, Option.some_ne_none, List.any_cons,
      List.any_nil, mkRat, Rat.normalize]
  · norm_num [Transaction.needs_review, matchedTxn, Option.some_ne_none, List.any_cons,
      List.any_nil, mkRat, Rat.normalize]

/-- C9 witness: the characterization applied to a concrete unmatched
transaction and to a concrete matched one at confidence 0.65. -/
theorem needs_review_characterization_witness :
    (freshTxn "x").is_matched = false ∧ (freshTxn "x").needs_review = true ∧
    (matchedTxn (mkRat 65 100) []).is_matched = true ∧
    (matchedTxn (mkRat 65 100) []).needs_review = true :=
  ⟨by decide, needs_review_characterization.1 (freshTxn "x") (by decide), by decide,
    (needs_review_characterization.2.1 (matchedTxn (mkRat 65 100) []) (by decide)).mpr
      (Or.inl (by norm_num [matchedTxn, mkRat, Rat.normalize]))⟩

/-- When the response fails on the account side - fewer than two lines, a
first line that is not a four-digit string, an account number absent from
the chart, or a non-leaf account - `_parse_llm_response` yields no account
number. -/
theorem llm_parse_account_none (chart : ChartOfAccounts) (out : String)
    (h : (pySplitLines (pyStrip out)).length < 2 ∨
      ∃ line0 line1 rest, pySplitLines (pyStrip out) = line0 :: line1 :: rest ∧
        (isFourDigitNumber (pyStrip line0) = false ∨
         chart.find_account (pyStrip line0) = none ∨
         ∃ a, chart.find_account (pyStrip line0) = some a ∧ a.is_leaf = false)) :
    (LLMMatcher._parse_llm_response chart (some out)).1 = none := by
  unfold LLMMatcher._parse_llm_response
  by_cases hempty : out = ""
  · simp [hempty]
  · simp only [if_neg hempty]
    rcases h with hlen | ⟨line0, line1, rest, heq, hcond⟩
    · cases hs : pySplitLines (pyStrip out) with
      | nil => simp
      | cons a tail =>
        cases tail with
        | nil => simp
        | cons b tb => rw [hs] at hlen; simp only [List.length_cons] at hlen; omega
    · rw [heq]
      rcases hcond with h4 | hfind | ⟨a, hfind, hleaf⟩
      · simp [h4]
      · simp [hfind]
      · simp [hfind, hleaf]

/-- C2 (amended): every failing LLM interaction that fails to yield a
validated account number - an API call returning no output or empty output,
a response with fewer than two lines, an account number that is not a
4-digit string, is absent from the chart, or is not a leaf account - leaves
the transaction's entire match state unchanged.  (A malformed or
out-of-range confidence line is not such a failure when the account line is
valid: the parse keeps the account with confidence 0.0 and the match can
still be applied.) -/
theorem llm_account_failures_leave_state_unchanged
    (chart : ChartOfAccounts) (llm_output : Option String) (t : Transaction)
    (hfail : llm_output = none ∨ llm_output = some "" ∨
      ∃ out, llm_output = some out ∧
        ((pySplitLines (pyStrip out)).length < 2 ∨
         ∃ line0 line1 rest, pySplitLines (pyStrip out) = line0 :: line1 :: rest ∧
           (isFourDigitNumber (pyStrip line0) = false ∨
            chart.find_account (pyStrip line0) = none ∨
            ∃ a, chart.find_account (pyStrip line0) = some a ∧ a.is_leaf = false))) :
    LLMMatcher.match_transaction chart llm_output t = t := by
  unfold LLMMatcher.match_transaction
  by_cases hleaves : chart.get_leaf_accounts.isEmpty
  · simp [hleaves]
  · rcases hfail with hnone | hleft | ⟨out, hout, hcond⟩
    · subst hnone; simp [hleaves]
    · subst hleft; simp [hleaves]
    · subst hout
      by_cases hempty : out = ""
      · simp [hleaves, hempty]
      · have hp := llm_parse_account_none chart out hcond
        simp [hleaves, hempty, hp]

/-- C2 witness: a two-line response naming the existing non-leaf account
1200 satisfies the failure hypothesis, and the matcher leaves the
transaction unchanged. -/
theorem llm_account_failures_leave_state_unchanged_witness :
    (∃ a, sampleChart.find_account "1200" = some a ∧ a.is_leaf = false) ∧
    LLMMatcher.match_transaction sampleChart (some ("1200" ++ "\n" ++ "90"))
        (freshTxn "x") = freshTxn "x" :=
  ⟨⟨child2, by decide, by decide⟩,
    llm_account_failures_leave_state_unchanged sampleChart
      (some ("1200" ++ "\n" ++ "90")) (freshTxn "x")
      (Or.inr (Or.inr ⟨"1200" ++ "\n" ++ "90", rfl,
        Or.inr ⟨"1200", "90", [], by decide,
          Or.inr (Or.inr ⟨child2, by decide, by decide⟩)⟩⟩))⟩

/-- C2 counterexample: a response whose first line is the valid leaf account
1100 but whose confidence line is malformed does mutate an unmatched
transaction - the parse keeps the account with confidence 0.0 and
`match_transaction` applies it - contradicting the claim that a malformed
confidence line leaves the match state unchanged. -/
theorem llm_malformed_confidence_line_still_mutates :
    LLMMatcher._parse_llm_response sampleChart (some ("1100" ++ "\n" ++ "abc")) =
      (some "1100", 0) ∧
    (freshTxn "x").matched_account = none ∧
    (LLMMatcher.match_transaction sampleChart (some ("1100" ++ "\n" ++ "abc"))
        (freshTxn "x")).matched_account = some child1 ∧
    (LLMMatcher.match_transaction sampleChart (some ("1100" ++ "\n" ++ "abc"))
        (freshTxn "x")).match_source = MatchSource.LLM ∧
    LLMMatcher.match_transaction sampleChart (some ("1100" ++ "\n" ++ "abc"))
        (freshTxn "x") ≠ freshTxn "x" := by
  refine ⟨by decide, rfl, by decide, by decide, by decide⟩

/-- `add_match` either installs exactly the account it was given as the
primary match or leaves the primary match untouched. -/
theorem add_match_matched_account (t : Transaction) (a : Account) (c : ℚ)
    (s : MatchSource) :
    (t.add_match a c s).matched_account = some a ∨
      (t.add_match a c s).matched_account = t.matched_account := by
  unfold Transaction.add_match
  split
  · exact Or.inl rfl
  · split
    · split
      · split
        · exact Or.inr rfl
        · exact Or.inr rfl
      · split
        · split
          · exact Or.inr rfl
          · exact Or.inr rfl
        · exact Or.inr rfl
    · exact Or.inr rfl

/-- A rule candidate accepted by `ruleApplies` has passed `_validate_match`,
so its account is a leaf. -/
theorem ruleApplies_leaf {chart : ChartOfAccounts} {mapped : String} {rule : Rule}
    {a : Account} {c : ℚ} (h : ruleApplies chart mapped rule = some (a, c)) :
    a.is_leaf = true := by
  unfold ruleApplies at h
  repeat' split at h
  all_goals simp_all [RuleMatcher._validate_match]

/-- One loop step either keeps the current best candidate or installs the
account of a rule accepted by `ruleApplies`. -/
theorem evalRule_best (chart : ChartOfAccounts) (mapped : String)
    (s : MatchState) (r : Rule) :
    (evalRule chart mapped s r).best_match_account = s.best_match_account ∨
      ∃ a c, ruleApplies chart mapped r = some (a, c) ∧
        (evalRule chart mapped s r).best_match_account = some a := by
  cases hr : ruleApplies chart mapped r with
  | none => left; simp [evalRule, hr]
  | some pc =>
    rcases pc with ⟨acct, conf⟩
    by_cases h1 : r.priority > s.highest_priority
    · exact Or.inr ⟨acct, conf, rfl, by simp [evalRule, hr, h1]⟩
    · by_cases h2 : r.priority = s.highest_priority ∧ conf > s.highest_confidence
      · exact Or.inr ⟨acct, conf, rfl, by simp [evalRule, hr, h1, h2]⟩
      · left; simp [evalRule, hr, h1, h2]

/-- The rule loop's best candidate is always a validated leaf account. -/
theorem foldl_evalRule_leaf (chart : ChartOfAccounts) (mapped : String)
    (rules : List Rule) (s : MatchState)
    (hs : ∀ a, s.best_match_account = some a → a.is_leaf = true) :
    ∀ a, (rules.foldl (evalRule chart mapped) s).best_match_account = some a →
      a.is_leaf = true := by
  induction rules generalizing s with
  | nil => exact hs
  | cons r rest ih =>
    intro a ha
    refine ih (evalRule chart mapped s r) ?_ a ha
    intro b hb
    rcases evalRule_best chart mapped s r with he | ⟨a2, c2, hr2, he⟩
    · rw [he] at hb; exact hs b hb
    · rw [he] at hb
      obtain rfl : a2 = b := Option.some.inj hb
      exact ruleApplies_leaf hr2

/-- A validated account number out of `_parse_llm_response` resolves, via
`find_account`, to a leaf account. -/
theorem llm_parse_leaf {chart : ChartOfAccounts} {llm_output : Option String}
    {num : String}
    (h : (LLMMatcher._parse_llm_response chart llm_output).1 = some num) :
    ∃ a, chart.find_account num = some a ∧ a.is_leaf = true := by
  unfold LLMMatcher._parse_llm_response at h
  cases llm_output with
  | none => cases h
  | some out =>
    by_cases hempty : out = ""
    · simp [hempty] at h
    · simp only [if_neg hempty] at h
      cases hs : pySplitLines (pyStrip out) with
      | nil => rw [hs] at h; cases h
      | cons line0 tail =>
        cases tail with
        | nil => rw [hs] at h; cases h
        | cons line1 rest =>
          rw [hs] at h
          by_cases h4 : isFourDigitNumber (pyStrip line0) = true
          · simp only [h4, if_true] at h
            cases hf : chart.find_account (pyStrip line0) with
            | none => rw [hf] at h; cases h
            | some pa =>
              rw [hf] at h
              by_cases hl : pa.is_leaf = true
              · simp only [hl, if_true] at h
                have : pyStrip line0 = num := by
                  simpa using h
                subst this
                exact ⟨pa, hf, hl⟩
              · simp only [hl] at h
                simp at h
          · simp only [h4] at h
            simp at h

/-- C10: neither matcher ever installs a non-leaf account as the matched
account: after `RuleMatcher.match_transaction` or
`LLMMatcher.match_transaction`, the transaction's `matched_account` is
either unchanged or a leaf account. -/
theorem matchers_assign_only_leaf_accounts :
    ∀ (chart : ChartOfAccounts) (description_mappings : List (String × String))
      (rules : List Rule) (llm_output : Option String) (t : Transaction),
      ((RuleMatcher.match_transaction chart description_mappings rules t).matched_account =
          t.matched_account ∨
        ∃ a, (RuleMatcher.match_transaction chart description_mappings rules
            t).matched_account = some a ∧ a.is_leaf = true) ∧
      ((LLMMatcher.match_transaction chart llm_output t).matched_account =
          t.matched_account ∨
        ∃ a, (LLMMatcher.match_transaction chart llm_output t).matched_account =
            some a ∧ a.is_leaf = true) := by
  intro chart description_mappings rules llm_output t
  constructor
  · cases hb : (rules.foldl
        (evalRule chart (RuleMatcher._apply_mapping description_mappings t.description))
        ⟨none, -1, -1⟩).best_match_account with
    | none =>
      left
      simp only [RuleMatcher.match_transaction, hb]
    | some best =>
      have hleaf : best.is_leaf = true :=
        foldl_evalRule_leaf chart _ rules ⟨none, -1, -1⟩ (by intro a ha; cases ha) best hb
      have hres : RuleMatcher.match_transaction chart description_mappings rules t =
          t.add_match best (rules.foldl
            (evalRule chart (RuleMatcher._apply_mapping description_mappings t.description))
            ⟨none, -1, -1⟩).highest_confidence MatchSource.RULE := by
        simp only [RuleMatcher.match_transaction, hb]
      rw [hres]
      rcases add_match_matched_account t best _ MatchSource.RULE with h1 | h2
      · exact Or.inr ⟨best, h1, hleaf⟩
      · exact Or.inl h2
  · by_cases hleaves : chart.get_leaf_accounts.isEmpty = true
    · left; simp [LLMMatcher.match_transaction, hleaves]
    · cases llm_output with
      | none => left; simp [LLMMatcher.match_transaction, hleaves]
      | some out =>
        by_cases hempty : out = ""
        · left; simp [LLMMatcher.match_transaction, hleaves, hempty]
        · cases hp : (LLMMatcher._parse_llm_response chart (some out)).1 with
          | none => left; simp [LLMMatcher.match_transaction, hleaves, hempty, hp]
          | some num =>
            obtain ⟨a, hf, hl⟩ := llm_parse_leaf hp
            have hres : LLMMatcher.match_transaction chart (some out) t =
                if t.is_matched = false ∨
                    (LLMMatcher._parse_llm_response chart (some out)).2 ≥
                      t.match_confidence then
                  t.add_match a (LLMMatcher._parse_llm_response chart (some out)).2
                    MatchSource.LLM
                else t := by
              simp [LLMMatcher.match_transaction, hleaves, hempty, hp, hf]
            rw [hres]
            split
            · rcases add_match_matched_account t a
                (LLMMatcher._parse_llm_response chart (some out)).2 MatchSource.LLM with
                h1 | h2
              · exact Or.inr ⟨a, h1, hl⟩
              · exact Or.inl h2
            · exact Or.inl rfl

/-- The stable descending sort produces a list pairwise ordered by
`matchGe`. -/
theorem sortAlternatives_sorted (l : List (Account × ℚ)) :
    List.Pairwise matchGe (sortAlternatives l) :=
  List.sorted_insertionSort matchGe l

/-- Sorting a list that is already pairwise descending leaves it unchanged. -/
theorem sortAlternatives_of_sorted {l : List (Account × ℚ)}
    (h : List.Pairwise matchGe l) : sortAlternatives l = l :=
  List.Sorted.insertionSort_eq h

/-- Membership is preserved by the sort. -/
theorem mem_sortAlternatives {x : Account × ℚ} {l : List (Account × ℚ)} :
    x ∈ sortAlternatives l ↔ x ∈ l :=
  (List.perm_insertionSort matchGe l).mem_iff

/-- A sorted-and-truncated alternatives list satisfies the bounded-sorted
invariant. -/
theorem sortAlternatives_take3_invariant (l : List (Account × ℚ)) :
    ((sortAlternatives l).take 3).length ≤ 3 ∧
      List.Pairwise matchGe ((sortAlternatives l).take 3) :=
  ⟨List.length_take_le 3 _, (sortAlternatives_sorted l).sublist (List.take_sublist 3 _)⟩

/-- Rewriting `match_source` to the value it already holds changes nothing. -/
theorem set_match_source_self (t : Transaction) (s : MatchSource)
    (h : t.match_source = s) : { t with match_source := s } = t := by
  cases t
  cases h
  rfl

/-- Rewriting `alternative_matches` to the value it already holds changes
nothing. -/
theorem set_alternatives_self (t : Transaction) (l : List (Account × ℚ))
    (h : t.alternative_matches = l) : { t with alternative_matches := l } = t := by
  cases t
  cases h
  rfl


/-- Re-suggesting the current primary with no higher confidence is a no-op
provided the source has nothing left to update (it already equals the
suggested source, or it is no longer `UNKNOWN`). -/
theorem add_match_noop (t : Transaction) (a : Account) (c : ℚ) (s : MatchSource)
    (hm : t.matched_account = some a) (hc : ¬ c > t.match_confidence)
    (hsrc : t.match_source = s ∨ ¬ t.match_source = MatchSource.UNKNOWN) :
    t.add_match a c s = t := by
  obtain ⟨td, pd, ds, cat, ty, am, memo, ma, mc, ms, alts⟩ := t
  replace hm : ma = some a := hm
  replace hc : ¬ c > mc := hc
  replace hsrc : ms = s ∨ ¬ ms = MatchSource.UNKNOWN := hsrc
  subst hm
  unfold Transaction.add_match
  dsimp only
  rw [if_neg (by simp [hc])]
  rw [if_neg (by simp), if_pos rfl]
  by_cases hu : ms = MatchSource.UNKNOWN
  · rw [if_pos hu]
    rcases hsrc with hss | hss
    · rw [hss]
    · exact absurd hu hss
  · rw [if_neg hu]

/-- In the first branch of `add_match` the primary slot takes the given
account, confidence and source. -/
theorem add_match_primary (t : Transaction) (a : Account) (c : ℚ) (s : MatchSource)
    (h1 : t.matched_account = none ∨ c > t.match_confidence) :
    (t.add_match a c s).matched_account = some a ∧
      (t.add_match a c s).match_confidence = c ∧
      (t.add_match a c s).match_source = s := by
  unfold Transaction.add_match
  rw [if_pos h1]
  exact ⟨rfl, rfl, rfl⟩

/-- Suggesting a different account that is already among the alternatives
changes nothing. -/
theorem add_match_already_alternative (t : Transaction) (a prev : Account) (c : ℚ)
    (s : MatchSource) (hm : t.matched_account = some prev)
    (h1 : ¬(t.matched_account = none ∨ c > t.match_confidence))
    (h2 : a ≠ prev ∧ c > mkRat 3 10)
    (h4 : t.alternative_matches.any (fun alt => decide (alt.1 = a)) = true) :
    t.add_match a c s = t := by
  unfold Transaction.add_match
  rw [if_neg h1, hm]
  dsimp only
  rw [if_pos h2, if_pos h4]

/-- Appending a candidate whose confidence does not exceed any entry of an
already full (three-element), sorted alternatives list changes nothing: the
candidate sorts to the end and is truncated away. -/
theorem add_match_full_low (t : Transaction) (a prev : Account) (c : ℚ)
    (s : MatchSource) (hm : t.matched_account = some prev)
    (h1 : ¬(t.matched_account = none ∨ c > t.match_confidence))
    (h2 : a ≠ prev ∧ c > mkRat 3 10)
    (hsorted : List.Pairwise matchGe t.alternative_matches)
    (hge : ∀ q ∈ t.alternative_matches, c ≤ q.2)
    (hlen : t.alternative_matches.length = 3) :
    t.add_match a c s = t := by
  by_cases h4 : t.alternative_matches.any (fun alt => decide (alt.1 = a)) = true
  · exact add_match_already_alternative t a prev c s hm h1 h2 h4
  · have happ : List.Pairwise matchGe (t.alternative_matches ++ [(a, c)]) := by
      rw [List.pairwise_append]
      refine ⟨hsorted, List.pairwise_singleton _ _, ?_⟩
      intro x hx y hy
      rw [List.mem_singleton] at hy
      subst hy
      exact hge x hx
    have hkey : (sortAlternatives (t.alternative_matches ++ [(a, c)])).take 3 =
        t.alternative_matches := by
      rw [sortAlternatives_of_sorted happ]
      rw [List.take_append_of_le_length (le_of_eq hlen.symm)]
      exact List.take_of_length_le (le_of_eq hlen)
    have he : t.add_match a c s = { t with alternative_matches := (sortAlternatives (t.alternative_matches ++ [(a, c)])).take 3 } := by
      unfold Transaction.add_match
      rw [if_neg h1, hm]
      dsimp only
      rw [if_pos h2, if_neg h4]
    rw [he, hkey]

/-- `add_match` preserves the bounded-sorted invariant of the alternatives
list: every branch either keeps the list or installs a sorted, three-element
truncation. -/
theorem add_match_alternatives_invariant (t : Transaction) (a : Account) (c : ℚ)
    (s : MatchSource)
    (h : t.alternative_matches.length ≤ 3 ∧
      List.Pairwise matchGe t.alternative_matches) :
    (t.add_match a c s).alternative_matches.length ≤ 3 ∧
      List.Pairwise matchGe (t.add_match a c s).alternative_matches := by
  by_cases h1 : t.matched_account = none ∨ c > t.match_confidence
  · cases hm : t.matched_account with
    | none =>
      have he : (t.add_match a c s).alternative_matches = t.alternative_matches := by
        unfold Transaction.add_match
        rw [if_pos h1, hm]
      rw [he]; exact h
    | some prev =>
      by_cases hpa : prev ≠ a
      · have he : (t.add_match a c s).alternative_matches =
            (sortAlternatives (t.alternative_matches ++ [(prev, t.match_confidence)])).take 3 := by
          unfold Transaction.add_match
          rw [if_pos h1, hm]
          dsimp only
          rw [if_pos hpa]
        rw [he]; exact sortAlternatives_take3_invariant _
      · have he : (t.add_match a c s).alternative_matches = t.alternative_matches := by
          unfold Transaction.add_match
          rw [if_pos h1, hm]
          dsimp only
          rw [if_neg hpa]
        rw [he]; exact h
  · cases hm : t.matched_account with
    | none =>
      have he : t.add_match a c s = t := by
        unfold Transaction.add_match
        rw [if_neg h1, hm]
      rw [he]; exact h
    | some prev =>
      by_cases h2 : a ≠ prev ∧ c > mkRat 3 10
      · by_cases h3 : t.alternative_matches.any (fun alt => decide (alt.1 = a)) = true
        · rw [add_match_already_alternative t a prev c s hm h1 h2 h3]; exact h
        · have he : (t.add_match a c s).alternative_matches =
              (sortAlternatives (t.alternative_matches ++ [(a, c)])).take 3 := by
            unfold Transaction.add_match
            rw [if_neg h1, hm]
            dsimp only
            rw [if_pos h2, if_neg h3]
          rw [he]; exact sortAlternatives_take3_invariant _
      · by_cases hap : a = prev
        · by_cases hu : t.match_source = MatchSource.UNKNOWN
          · have he : (t.add_match a c s).alternative_matches =
                t.alternative_matches := by
              unfold Transaction.add_match
              rw [if_neg h1, hm]
              dsimp only
              rw [if_neg h2, if_pos hap, if_pos hu]
            rw [he]; exact h
          · have he : t.add_match a c s = t := by
              unfold Transaction.add_match
              rw [if_neg h1, hm]
              dsimp only
              rw [if_neg h2, if_pos hap, if_neg hu]
            rw [he]; exact h
        · have he : t.add_match a c s = t := by
            unfold Transaction.add_match
            rw [if_neg h1, hm]
            dsimp only
            rw [if_neg h2, if_neg hap]
          rw [he]; exact h

/-- Any sequence of `add_match` calls preserves the bounded-sorted invariant
of the alternatives list. -/
theorem applyMatchCalls_invariant (calls : List (Account × ℚ × MatchSource))
    (t : Transaction)
    (h : t.alternative_matches.length ≤ 3 ∧
      List.Pairwise matchGe t.alternative_matches) :
    (applyMatchCalls calls t).alternative_matches.length ≤ 3 ∧
      List.Pairwise matchGe (applyMatchCalls calls t).alternative_matches := by
  induction calls generalizing t with
  | nil => exact h
  | cons acs rest ih =>
    exact ih (t.add_match acs.1 acs.2.1 acs.2.2)
      (add_match_alternatives_invariant t acs.1 acs.2.1 acs.2.2 h)

/-- Calling `add_match` twice with identical arguments converges after the
first call: the second call is always a no-op. -/
theorem add_match_idem (t : Transaction) (a : Account) (c : ℚ) (s : MatchSource) :
    (t.add_match a c s).add_match a c s = t.add_match a c s := by
  by_cases h1 : t.matched_account = none ∨ c > t.match_confidence
  · obtain ⟨hm1, hc1, hs1⟩ := add_match_primary t a c s h1
    exact add_match_noop _ a c s hm1 (by rw [hc1]; exact lt_irrefl c) (Or.inl hs1)
  · cases hm : t.matched_account with
    | none => exact absurd (Or.inl hm) h1
    | some prev =>
      by_cases h2 : a ≠ prev ∧ c > mkRat 3 10
      · by_cases h3 : t.alternative_matches.any (fun alt => decide (alt.1 = a)) = true
        · have he : t.add_match a c s = t :=
            add_match_already_alternative t a prev c s hm h1 h2 h3
          rw [he]; exact he
        · have he : t.add_match a c s = { t with alternative_matches := (sortAlternatives (t.alternative_matches ++ [(a, c)])).take 3 } := by
            unfold Transaction.add_match
            rw [if_neg h1, hm]
            dsimp only
            rw [if_pos h2, if_neg h3]
          rw [he]
          have hm' : ({ t with alternative_matches := (sortAlternatives (t.alternative_matches ++ [(a, c)])).take 3 } : Transaction).matched_account = some prev := hm
          have h1' : ¬(({ t with alternative_matches := (sortAlternatives (t.alternative_matches ++ [(a, c)])).take 3 } : Transaction).matched_account = none ∨ c > ({ t with alternative_matches := (sortAlternatives (t.alternative_matches ++ [(a, c)])).take 3 } : Transaction).match_confidence) := h1
          by_cases h4 : ((sortAlternatives (t.alternative_matches ++ [(a, c)])).take 3).any
              (fun alt => decide (alt.1 = a)) = true
          · exact add_match_already_alternative _ a prev c s hm' h1' h2 h4
          · have hmemS : (a, c) ∈ sortAlternatives (t.alternative_matches ++ [(a, c)]) :=
              mem_sortAlternatives.mpr (List.mem_append_right _ (List.mem_singleton_self _))
            have hnot : (a, c) ∉ (sortAlternatives (t.alternative_matches ++ [(a, c)])).take 3 := by
              intro hmem
              exact h4 (List.any_eq_true.mpr ⟨(a, c), hmem, by simp⟩)
            have hdrop : (a, c) ∈ (sortAlternatives (t.alternative_matches ++ [(a, c)])).drop 3 := by
              rcases List.mem_append.mp
                  (by rw [List.take_append_drop]; exact hmemS :
                    (a, c) ∈ (sortAlternatives (t.alternative_matches ++ [(a, c)])).take 3 ++
                      (sortAlternatives (t.alternative_matches ++ [(a, c)])).drop 3) with
                hx | hx
              · exact absurd hx hnot
              · exact hx
            have hgt3 : 3 < (sortAlternatives (t.alternative_matches ++ [(a, c)])).length := by
              by_contra hle
              push_neg at hle
              rw [List.drop_eq_nil_of_le hle] at hdrop
              exact absurd hdrop (List.not_mem_nil _)
            have hlen : (((sortAlternatives (t.alternative_matches ++ [(a, c)])).take 3)).length = 3 := by
              rw [List.length_take]
              omega
            have hge : ∀ q ∈ (sortAlternatives (t.alternative_matches ++ [(a, c)])).take 3,
                c ≤ q.2 := by
              intro q hq
              have hp := sortAlternatives_sorted (t.alternative_matches ++ [(a, c)])
              rw [← List.take_append_drop 3 (sortAlternatives (t.alternative_matches ++ [(a, c)]))] at hp
              exact (List.pairwise_append.mp hp).2.2 q hq (a, c) hdrop
            exact add_match_full_low _ a prev c s hm' h1' h2
              (sortAlternatives_take3_invariant _).2 hge hlen
      · by_cases hap : a = prev
        · subst hap
          by_cases hu : t.match_source = MatchSource.UNKNOWN
          · have he : t.add_match a c s = { t with matched_account := some a, match_source := s } := by
              unfold Transaction.add_match
              rw [if_neg h1, hm]
              dsimp only
              rw [if_neg h2, if_pos rfl, if_pos hu]
            rw [he]
            exact add_match_noop _ a c s rfl (fun hgt => h1 (Or.inr hgt)) (Or.inl rfl)
          · have he : t.add_match a c s = t := by
              unfold Transaction.add_match
              rw [if_neg h1, hm]
              dsimp only
              rw [if_neg h2, if_pos rfl, if_neg hu]
            rw [he]; exact he
        · have he : t.add_match a c s = t := by
            unfold Transaction.add_match
            rw [if_neg h1, hm]
            dsimp only
            rw [if_neg h2, if_neg hap]
          rw [he]; exact he

/-- C5: a second `add_match` call with arguments identical to the
immediately preceding call leaves the match state exactly as after the
first call; and after any sequence of `add_match` calls starting from the
unmatched state (no matched account, empty alternatives), the alternatives
list has at most three entries and is sorted by confidence in descending
order. -/
theorem add_match_idempotent_and_alternatives_bounded_sorted :
    (∀ (t : Transaction) (account : Account) (confidence : ℚ) (source : MatchSource),
      (t.add_match account confidence source).add_match account confidence source =
        t.add_match account confidence source) ∧
    (∀ (calls : List (Account × ℚ × MatchSource)) (t : Transaction),
      t.matched_account = none → t.alternative_matches = [] →
        (applyMatchCalls calls t).alternative_matches.length ≤ 3 ∧
          List.Pairwise matchGe (applyMatchCalls calls t).alternative_matches) :=
  ⟨add_match_idem,
    fun calls t _ halts =>
      applyMatchCalls_invariant calls t
        (by rw [halts]; exact ⟨by simp, List.Pairwise.nil⟩)⟩

/-- C5 witness: a fresh transaction taken through two concrete `add_match`
calls keeps a bounded, descending alternatives list, and a concrete repeated
call is idempotent. -/
theorem add_match_idempotent_and_alternatives_bounded_sorted_witness :
    (freshTxn "x").matched_account = none ∧
    (freshTxn "x").alternative_matches = [] ∧
    ((applyMatchCalls [(child1, mkRat 9 10, MatchSource.RULE),
        (grandchild, mkRat 6 10, MatchSource.LLM)]
        (freshTxn "x")).alternative_matches.length ≤ 3 ∧
      List.Pairwise matchGe (applyMatchCalls [(child1, mkRat 9 10, MatchSource.RULE),
        (grandchild, mkRat 6 10, MatchSource.LLM)]
        (freshTxn "x")).alternative_matches) ∧
    ((freshTxn "x").add_match child1 (mkRat 9 10) MatchSource.RULE).add_match child1
        (mkRat 9 10) MatchSource.RULE =
      (freshTxn "x").add_match child1 (mkRat 9 10) MatchSource.RULE :=
  ⟨rfl, rfl,
    add_match_idempotent_and_alternatives_bounded_sorted.2
      [(child1, mkRat 9 10, MatchSource.RULE), (grandchild, mkRat 6 10, MatchSource.LLM)]
      (freshTxn "x") rfl rfl,
    add_match_idempotent_and_alternatives_bounded_sorted.1 (freshTxn "x") child1
      (mkRat 9 10) MatchSource.RULE⟩

